import Mathlib

/-!
Verification of the smpc dialog-sequencing engine: a shallow embedding of the
message categorization, window monitor, event wait primitive and compilation
orchestration, together with theorems about the behaviour of each.
-/

namespace Smpc

/-! ## Message categorization (Program Compilation dialog)

Embeds `categorizeMessage` / `appendContinuation` (DialogHandler variant) and
`parseDetailedMessages` (event-driven variant) from the compiler package.
-/

/-- The three message lists accumulated while parsing the Program Compilation
list box: `(errors, warnings, notices)`. -/
structure Messages where
  errors : List String
  warnings : List String
  notices : List String
deriving Repr, DecidableEq

def Messages.empty : Messages := ⟨[], [], []⟩

/-- `strings.ToUpper` restricted to the ASCII range, as a kernel-reducible map
over the character list of the string. -/
def stringsToUpper (s : String) : String := ⟨s.data.map Char.toUpper⟩

/-- `strings.TrimSpace`: drop whitespace from both ends. -/
def stringsTrimSpace (s : String) : String :=
  ⟨((s.data.dropWhile Char.isWhitespace).reverse.dropWhile Char.isWhitespace).reverse⟩

/-- `strings.HasPrefix s pre`. -/
def startsWithToken (s pre : String) : Bool := pre.data.isPrefixOf s.data

/-- `lst[len(lst)-1] += " " ++ line` on a Go slice: extend the final element. -/
def appendToLast : List String → String → List String
  | [], _ => []
  | [x], line => [x ++ " " ++ line]
  | x :: y :: xs, line => x :: appendToLast (y :: xs) line

/-- `appendContinuation`: a continuation line goes to the errors list if it is
non-empty, else warnings, else notices (the order of the Go `switch` cases). -/
def appendContinuation (line : String) (m : Messages) : Messages :=
  if m.errors.length > 0 then { m with errors := appendToLast m.errors line }
  else if m.warnings.length > 0 then { m with warnings := appendToLast m.warnings line }
  else if m.notices.length > 0 then { m with notices := appendToLast m.notices line }
  else m

/-- `categorizeMessage`: classify one line by its upper-cased leading token, or
treat it as a continuation of a previous message. -/
def categorizeMessage (line : String) (m : Messages) : Messages :=
  let lineUpper := stringsToUpper line
  if startsWithToken lineUpper "ERROR" then { m with errors := m.errors ++ [line] }
  else if startsWithToken lineUpper "WARNING" then { m with warnings := m.warnings ++ [line] }
  else if startsWithToken lineUpper "NOTICE" then { m with notices := m.notices ++ [line] }
  else appendContinuation line m

/-- The per-line loop of `ParseProgramCompilation` over the list-box items:
trim each line, skip empties, and categorize the rest. -/
def parseProgramCompilationItems (items : List String) : Messages :=
  items.foldl
    (fun m raw =>
      let line := stringsTrimSpace raw
      if line = "" then m else categorizeMessage line m)
    Messages.empty

/-- The `lastType` tracker of the event-driven `parseDetailedMessages`
(`""`, `"ERROR"`, `"WARNING"` or `"NOTICE"`). -/
inductive LastType
  | unset
  | errorT
  | warningT
  | noticeT
deriving Repr, DecidableEq

structure DetailedState where
  msgs : Messages
  lastType : LastType
deriving Repr, DecidableEq

/-- One line of the event-driven `parseDetailedMessages` loop: the token must
be followed by a tab or a space, and a continuation extends the list of the
most recent classified type. -/
def detailedStep (st : DetailedState) (raw : String) : DetailedState :=
  let line := stringsTrimSpace raw
  if line = "" then st
  else
    let u := stringsToUpper line
    if startsWithToken u "ERROR\t" || startsWithToken u "ERROR " then
      { msgs := { st.msgs with errors := st.msgs.errors ++ [line] }, lastType := .errorT }
    else if startsWithToken u "WARNING\t" || startsWithToken u "WARNING " then
      { msgs := { st.msgs with warnings := st.msgs.warnings ++ [line] }, lastType := .warningT }
    else if startsWithToken u "NOTICE\t" || startsWithToken u "NOTICE " then
      { msgs := { st.msgs with notices := st.msgs.notices ++ [line] }, lastType := .noticeT }
    else
      match st.lastType with
      | .errorT =>
          if st.msgs.errors.length > 0 then
            { st with msgs := { st.msgs with errors := appendToLast st.msgs.errors line } }
          else st
      | .warningT =>
          if st.msgs.warnings.length > 0 then
            { st with msgs := { st.msgs with warnings := appendToLast st.msgs.warnings line } }
          else st
      | .noticeT =>
          if st.msgs.notices.length > 0 then
            { st with msgs := { st.msgs with notices := appendToLast st.msgs.notices line } }
          else st
      | .unset => st

/-- `parseDetailedMessages` applied to the items of one list box. -/
def parseDetailedMessagesItems (items : List String) : Messages :=
  (items.foldl detailedStep ⟨Messages.empty, .unset⟩).msgs

/-- Claim C4: categorizing `["ERROR: foo", "cont of foo", "WARNING: bar"]` is
claimed to yield errors `["foo cont of foo"]` and warnings `["bar"]`; the
code keeps the leading token on each classified line, so it does not. -/
theorem categorize_c4_example_counterexample :
    parseProgramCompilationItems ["ERROR: foo", "cont of foo", "WARNING: bar"] ≠
      { errors := ["foo cont of foo"], warnings := ["bar"], notices := [] } := by
  decide

/-- Claim C4 (amended): the categorization keeps the leading token of each
classified line, yielding errors `["ERROR: foo cont of foo"]` and warnings
`["WARNING: bar"]`; the event-driven `parseDetailedMessages` variant, whose
token match requires a trailing tab or space, classifies none of these
colon-suffixed lines and leaves every list empty. -/
theorem categorize_c4_example :
    parseProgramCompilationItems ["ERROR: foo", "cont of foo", "WARNING: bar"] =
      { errors := ["ERROR: foo cont of foo"], warnings := ["WARNING: bar"], notices := [] }
    ∧ parseDetailedMessagesItems ["ERROR: foo", "cont of foo", "WARNING: bar"] =
      Messages.empty := by
  decide

/-- Claim C5: on `["ERROR: a", "WARNING: b", "next line"]` the warnings list
most recently received an entry, yet the continuation line is appended to the
errors list, and the warnings list is left untouched: continuations are not
routed to the most recently extended list. -/
theorem continuation_goes_to_errors_counterexample :
    parseProgramCompilationItems ["ERROR: a", "WARNING: b", "next line"] =
      { errors := ["ERROR: a next line"], warnings := ["WARNING: b"], notices := [] }
    ∧ parseProgramCompilationItems ["ERROR: a", "WARNING: b", "next line"] ≠
      { errors := ["ERROR: a"], warnings := ["WARNING: b next line"], notices := [] } := by
  decide

/-- Claim C5 (amended): in `ParseProgramCompilation`/`appendContinuation`, an
unrecognized line is appended to the last entry of the errors list whenever
the errors list is non-empty, regardless of which list most recently received
an entry; warnings and notices fall lower in the preference order. -/
theorem continuation_prefers_errors (line : String) (m : Messages)
    (h1 : startsWithToken (stringsToUpper line) "ERROR" = false)
    (h2 : startsWithToken (stringsToUpper line) "WARNING" = false)
    (h3 : startsWithToken (stringsToUpper line) "NOTICE" = false)
    (herr : m.errors ≠ []) :
    categorizeMessage line m = { m with errors := appendToLast m.errors line } := by
  have hlen : m.errors.length > 0 := List.length_pos.mpr herr
  simp [categorizeMessage, appendContinuation, h1, h2, h3, hlen]

/-- The preferential continuation routing witnessed on a state whose most
recent entry went to the warnings list. -/
theorem continuation_prefers_errors_witness :
    categorizeMessage "next line" ⟨["ERROR: a"], ["WARNING: b"], []⟩ =
      ⟨["ERROR: a next line"], ["WARNING: b"], []⟩ := by
  rw [continuation_prefers_errors "next line" ⟨["ERROR: a"], ["WARNING: b"], []⟩
    (by decide) (by decide) (by decide) (by decide)]
  decide

/-! ## Window monitor (`StartWindowMonitor`, `StartMonitoring`)

State of the background monitor goroutine: the seen-set of window handles,
the bounded replay cache (`recentEvents`, oldest first), and the buffered
delivery channel (`MonitorCh`, capacity 64) modelled as a queue. The ghost
field `emitted` records every event the monitor ever broadcast; it is not
part of the program state and exists only to state lifetime properties. -/

/-- One entry of `EnumerateWindows`. -/
structure WindowInfo where
  hwnd : Nat
  title : String
  pid : Nat
deriving Repr, DecidableEq

/-- A `WindowEvent` as constructed by the monitor (`Hwnd, Title, Pid, Class`). -/
structure WindowEvent where
  hwnd : Nat
  title : String
  pid : Nat
  cls : String
deriving Repr, DecidableEq

/-- Capacity of the buffered `MonitorCh` channel. -/
def monitorQueueCapacity : Nat := 64

/-- Maximum number of events retained in the replay cache. -/
def replayCacheLimit : Nat := 256

structure MonitorState where
  seen : List Nat
  cache : List WindowEvent
  queue : List WindowEvent
  emitted : List WindowEvent
deriving Repr, DecidableEq

def MonitorState.init : MonitorState := ⟨[], [], [], []⟩

/-- Event construction at first sight of a window handle. -/
def mkEvent (cls : Nat → String) (w : WindowInfo) : WindowEvent :=
  ⟨w.hwnd, w.title, w.pid, cls w.hwnd⟩

/-- `if len(recentEvents) > 256 { recentEvents = recentEvents[len-256:] }`. -/
def trimCache (l : List WindowEvent) : List WindowEvent :=
  if l.length > replayCacheLimit then l.drop (l.length - replayCacheLimit) else l

/-- The per-window body of the monitor loop: skip other processes when a
target pid is set, skip handles already in the seen-set, otherwise mark the
handle seen and — when the channel exists — append the new event to the
replay cache (trimmed) and push it into the queue unless the queue is full. -/
def processWindow (pid : Nat) (chInit : Bool) (cls : Nat → String)
    (s : MonitorState) (w : WindowInfo) : MonitorState :=
  if pid ≠ 0 ∧ w.pid ≠ pid then s
  else if s.seen.contains w.hwnd then s
  else
    let s1 : MonitorState := { s with seen := w.hwnd :: s.seen }
    if chInit then
      let ev := mkEvent cls w
      { s1 with
        cache := trimCache (s1.cache ++ [ev])
        queue := if s1.queue.length < monitorQueueCapacity then s1.queue ++ [ev] else s1.queue
        emitted := s1.emitted ++ [ev] }
    else s1

/-- One tick of the monitor loop: process every enumerated window in order. -/
def monitorTick (pid : Nat) (chInit : Bool) (cls : Nat → String)
    (s : MonitorState) (ws : List WindowInfo) : MonitorState :=
  ws.foldl (processWindow pid chInit cls) s

/-- The monitor started from a fresh seen-set, run over a schedule of
enumeration results, one list per tick. -/
def monitorRun (pid : Nat) (chInit : Bool) (cls : Nat → String)
    (ticks : List (List WindowInfo)) : MonitorState :=
  ticks.foldl (monitorTick pid chInit cls) MonitorState.init

/-- The monitor goroutine together with the state of its governing
cancellation signal. -/
structure MonitorSystem where
  cancelled : Bool
  state : MonitorState
deriving Repr, DecidableEq

/-- One iteration of the `StartWindowMonitor` loop inside the running system.
The loop body — enumerate, process each window, sleep, repeat — contains no
check of any cancellation signal, so the step is taken whether or not
`cancelled` is set. -/
def monitorSystemTick (pid : Nat) (chInit : Bool) (cls : Nat → String)
    (sys : MonitorSystem) (ws : List WindowInfo) : MonitorSystem :=
  { sys with state := monitorTick pid chInit cls sys.state ws }

/-- The pid-probing prelude of `StartMonitoring`: up to 50 probes, stopping
at the first non-zero pid. `fuel` counts the remaining iterations. -/
def pollPid (probe : Nat → Nat) : Nat → Nat
  | 0 => 0
  | fuel + 1 =>
    let p := probe (50 - (fuel + 1))
    if p ≠ 0 then p else pollPid probe fuel

/-- The `StartMonitoring` goroutine up to the point where the window monitor
is launched: each probing iteration first checks the cancellation signal via
`select`/`ctx.Done()` and returns early when it has fired. The result is
`none` when the goroutine returned before starting the monitor, and
`some pid` (possibly 0, meaning all processes) when the monitor was started. -/
def startMonitoringGoroutine (cancelled : Bool) (probe : Nat → Nat) : Option Nat :=
  if cancelled then none else some (pollPid probe 50)

/-- Claim C3: a monitor tick taken after the cancellation signal has fired
still mutates the replay cache — the monitor loop does not terminate with the
signal, so monitor activity can outlive the run. -/
theorem monitor_ignores_cancellation_counterexample :
    (monitorSystemTick 0 true (fun _ => "#32770")
        { cancelled := true, state := MonitorState.init }
        [⟨2, "Compiling...", 5⟩]).state.cache =
      [⟨2, "Compiling...", 5, "#32770"⟩] := by
  decide

/-- Claim C3 (amended): cancelling the context returned by `StartMonitoring`
stops the pid-probing wrapper goroutine (which then never starts the window
monitor), but the `StartWindowMonitor` loop itself contains no cancellation
check: a tick taken with the signal fired produces exactly the state of the
same tick taken with the signal clear. -/
theorem stop_cancels_wrapper_not_monitor_loop (pid : Nat) (chInit : Bool)
    (cls : Nat → String) (probe : Nat → Nat) (st : MonitorState)
    (ws : List WindowInfo) :
    startMonitoringGoroutine true probe = none
    ∧ (monitorSystemTick pid chInit cls ⟨true, st⟩ ws).state =
        (monitorSystemTick pid chInit cls ⟨false, st⟩ ws).state := by
  exact ⟨rfl, rfl⟩

/-! ## Deduplication and bounds of the monitor -/

/-- Invariant of the monitor state: every broadcast event's handle is in the
seen-set, broadcast handles are pairwise distinct, and the replay cache and
delivery queue only ever hold broadcast events. -/
def MonitorInv (s : MonitorState) : Prop :=
  (∀ ev ∈ s.emitted, ev.hwnd ∈ s.seen)
  ∧ s.emitted.Pairwise (fun a b => a.hwnd ≠ b.hwnd)
  ∧ s.cache.Sublist s.emitted
  ∧ s.queue.Sublist s.emitted

lemma trimCache_sublist (l : List WindowEvent) : (trimCache l).Sublist l := by
  unfold trimCache
  split
  · exact List.drop_sublist _ _
  · exact List.Sublist.refl _

lemma processWindow_inv (pid : Nat) (chInit : Bool) (cls : Nat → String)
    (s : MonitorState) (w : WindowInfo) (h : MonitorInv s) :
    MonitorInv (processWindow pid chInit cls s w) := by
  obtain ⟨hmem, hpw, hcache, hqueue⟩ := h
  unfold processWindow
  split
  · exact ⟨hmem, hpw, hcache, hqueue⟩
  · split
    · exact ⟨hmem, hpw, hcache, hqueue⟩
    · next hseen =>
      have hw : w.hwnd ∉ s.seen := by
        simpa using hseen
      split
      · dsimp only
        refine ⟨?_, ?_, ?_, ?_⟩
        · intro ev hev
          rcases List.mem_append.mp hev with h1 | h2
          · exact List.mem_cons_of_mem _ (hmem ev h1)
          · simp only [List.mem_singleton] at h2
            subst h2
            exact List.mem_cons_self _ _
        · refine List.pairwise_append.mpr ⟨hpw, List.pairwise_singleton _ _, ?_⟩
          intro a ha b hb
          simp only [List.mem_singleton] at hb
          subst hb
          intro hcontra
          simp only [mkEvent] at hcontra
          exact hw (hcontra ▸ hmem a ha)
        · exact (trimCache_sublist _).trans (List.Sublist.append hcache (List.Sublist.refl _))
        · split
          · exact List.Sublist.append hqueue (List.Sublist.refl _)
          · exact hqueue.trans (List.sublist_append_left _ _)
      · exact ⟨fun ev hev => List.mem_cons_of_mem _ (hmem ev hev), hpw,
          hcache.trans (List.Sublist.refl _),
          hqueue.trans (List.Sublist.refl _)⟩

lemma foldl_preserves {β : Type} (f : MonitorState → β → MonitorState)
    (P : MonitorState → Prop) (hf : ∀ s b, P s → P (f s b)) :
    ∀ (l : List β) (s : MonitorState), P s → P (l.foldl f s) := by
  intro l
  induction l with
  | nil => intro s hs; exact hs
  | cons b t ih => intro s hs; exact ih _ (hf s b hs)

lemma monitorTick_inv (pid : Nat) (chInit : Bool) (cls : Nat → String)
    (s : MonitorState) (ws : List WindowInfo) (h : MonitorInv s) :
    MonitorInv (monitorTick pid chInit cls s ws) :=
  foldl_preserves _ MonitorInv (fun s w => processWindow_inv pid chInit cls s w) ws s h

lemma monitorRun_inv (pid : Nat) (chInit : Bool) (cls : Nat → String)
    (ticks : List (List WindowInfo)) : MonitorInv (monitorRun pid chInit cls ticks) := by
  refine foldl_preserves _ MonitorInv
    (fun s ws => monitorTick_inv pid chInit cls s ws) ticks MonitorState.init ?_
  refine ⟨?_, ?_, ?_, ?_⟩ <;> simp [MonitorState.init]

lemma length_filter_le_one_of_pairwise {l : List WindowEvent} {h : Nat}
    (hpw : l.Pairwise (fun a b => a.hwnd ≠ b.hwnd)) :
    (l.filter (fun e => e.hwnd == h)).length ≤ 1 := by
  induction l with
  | nil => simp
  | cons a t ih =>
    rcases List.pairwise_cons.mp hpw with ⟨hall, hpt⟩
    by_cases hah : a.hwnd = h
    · have hnil : t.filter (fun e => e.hwnd == h) = [] := by
        refine List.filter_eq_nil_iff.mpr ?_
        intro b hb
        simp only [beq_iff_eq]
        intro hbh
        exact hall b hb (by rw [hah, hbh])
      simp [List.filter_cons, hah, hnil]
    · simp only [List.filter_cons, beq_iff_eq, hah, if_false]
      exact ih hpt

/-- Claim C7: over any schedule of monitor ticks, a given window handle gives
rise to at most one WindowEvent: the broadcast history, the replay cache and
the delivery queue each hold at most one event for that handle. -/
theorem handle_yields_at_most_one_event (pid : Nat) (chInit : Bool)
    (cls : Nat → String) (ticks : List (List WindowInfo)) (hwnd : Nat) :
    (((monitorRun pid chInit cls ticks).emitted.filter (fun e => e.hwnd == hwnd)).length ≤ 1)
    ∧ (((monitorRun pid chInit cls ticks).cache.filter (fun e => e.hwnd == hwnd)).length ≤ 1)
    ∧ (((monitorRun pid chInit cls ticks).queue.filter (fun e => e.hwnd == hwnd)).length ≤ 1) := by
  obtain ⟨hmem, hpw, hcache, hqueue⟩ := monitorRun_inv pid chInit cls ticks
  exact ⟨length_filter_le_one_of_pairwise hpw,
    length_filter_le_one_of_pairwise (hpw.sublist hcache),
    length_filter_le_one_of_pairwise (hpw.sublist hqueue)⟩

/-! ## Replay-cache bound and non-blocking queue (C8) -/

lemma trimCache_eq_drop (l : List WindowEvent) :
    trimCache l = l.drop (l.length - replayCacheLimit) := by
  unfold trimCache
  split
  · rfl
  · next h =>
    have h0 : l.length - replayCacheLimit = 0 := by omega
    rw [h0, List.drop_zero]

lemma cache_drop_step (emitted : List WindowEvent) (ev : WindowEvent) :
    trimCache (emitted.drop (emitted.length - replayCacheLimit) ++ [ev]) =
      (emitted ++ [ev]).drop ((emitted ++ [ev]).length - replayCacheLimit) := by
  rw [trimCache_eq_drop]
  by_cases hle : emitted.length ≤ replayCacheLimit
  · have h0 : emitted.length - replayCacheLimit = 0 := by omega
    rw [h0, List.drop_zero]
  · have hlen : (emitted.drop (emitted.length - replayCacheLimit)).length = replayCacheLimit := by
      rw [List.length_drop]
      omega
    have hidx1 : (emitted.drop (emitted.length - replayCacheLimit) ++ [ev]).length
        - replayCacheLimit = 1 := by
      rw [List.length_append, hlen]
      simp
    have hidx2 : (emitted ++ [ev]).length - replayCacheLimit
        = (emitted.length - replayCacheLimit) + 1 := by
      rw [List.length_append]
      simp only [List.length_singleton]
      omega
    have hlim : replayCacheLimit = 256 := rfl
    have e1 : (emitted.drop (emitted.length - replayCacheLimit) ++ [ev]).drop 1 =
        (emitted.drop (emitted.length - replayCacheLimit)).drop 1 ++ [ev] :=
      List.drop_append_of_le_length (by rw [List.length_drop]; omega)
    have e2 : (emitted ++ [ev]).drop ((emitted.length - replayCacheLimit) + 1) =
        emitted.drop ((emitted.length - replayCacheLimit) + 1) ++ [ev] :=
      List.drop_append_of_le_length (by omega)
    rw [hidx1, hidx2, e1, e2, List.drop_drop, Nat.add_comm]

/-- The replay cache always consists of exactly the most recent
`replayCacheLimit` broadcast events. -/
def CacheIsRecent (s : MonitorState) : Prop :=
  s.cache = s.emitted.drop (s.emitted.length - replayCacheLimit)

lemma processWindow_cacheIsRecent (pid : Nat) (chInit : Bool) (cls : Nat → String)
    (s : MonitorState) (w : WindowInfo) (h : CacheIsRecent s) :
    CacheIsRecent (processWindow pid chInit cls s w) := by
  unfold processWindow
  split
  · exact h
  · split
    · exact h
    · split
      · dsimp only
        unfold CacheIsRecent at h ⊢
        dsimp only
        rw [h]
        exact cache_drop_step s.emitted (mkEvent cls w)
      · exact h

lemma monitorRun_cacheIsRecent (pid : Nat) (chInit : Bool) (cls : Nat → String)
    (ticks : List (List WindowInfo)) :
    CacheIsRecent (monitorRun pid chInit cls ticks) := by
  refine foldl_preserves _ CacheIsRecent
    (fun s ws hs =>
      foldl_preserves _ CacheIsRecent
        (fun s' w hs' => processWindow_cacheIsRecent pid chInit cls s' w hs') ws s hs)
    ticks MonitorState.init ?_
  simp [CacheIsRecent, MonitorState.init]

lemma mem_trimCache_last (l : List WindowEvent) (ev : WindowEvent) :
    ev ∈ trimCache (l ++ [ev]) := by
  rw [trimCache_eq_drop]
  have hk : (l ++ [ev]).length - replayCacheLimit ≤ l.length := by
    rw [List.length_append]
    simp only [List.length_singleton]
    have : 0 < replayCacheLimit := by decide
    omega
  rw [List.drop_append_of_le_length hk]
  exact List.mem_append_right _ (List.mem_singleton_self ev)

/-- Claim C8: after every monitor step the replay cache holds exactly the most
recent `replayCacheLimit` broadcast events (hence at most 256 entries), and
when the delivery queue is full a fresh event is dropped from live delivery
(the queue is unchanged) while still being appended to the replay cache. -/
theorem cache_bounded_and_queue_never_blocks (pid : Nat) (chInit : Bool)
    (cls : Nat → String) (ticks : List (List WindowInfo))
    (s : MonitorState) (w : WindowInfo)
    (hq : s.queue.length = monitorQueueCapacity)
    (hseen : s.seen.contains w.hwnd = false)
    (hpid : pid = 0 ∨ w.pid = pid)
    (hch : chInit = true) :
    ((monitorRun pid chInit cls ticks).cache =
        (monitorRun pid chInit cls ticks).emitted.drop
          ((monitorRun pid chInit cls ticks).emitted.length - replayCacheLimit)
      ∧ (monitorRun pid chInit cls ticks).cache.length ≤ replayCacheLimit)
    ∧ ((processWindow pid chInit cls s w).queue = s.queue
      ∧ mkEvent cls w ∈ (processWindow pid chInit cls s w).cache) := by
  have hrec := monitorRun_cacheIsRecent pid chInit cls ticks
  unfold CacheIsRecent at hrec
  constructor
  · refine ⟨hrec, ?_⟩
    rw [hrec, List.length_drop]
    omega
  · have hfilt : ¬(pid ≠ 0 ∧ w.pid ≠ pid) := by
      rcases hpid with h | h
      · intro hc; exact hc.1 h
      · intro hc; exact hc.2 h
    have hseen' : ¬(s.seen.contains w.hwnd = true) := by
      rw [hseen]; simp
    rw [processWindow, if_neg hfilt, if_neg hseen']
    subst hch
    rw [if_pos rfl]
    dsimp only
    constructor
    · rw [if_neg]
      rw [hq]
      simp
    · exact mem_trimCache_last _ _

/-- A monitor state whose delivery queue is full. -/
def c8FullQueueState : MonitorState :=
  ⟨[], [], List.replicate monitorQueueCapacity ⟨9, "pending", 0, "Dialog"⟩, []⟩

def c8NewWindow : WindowInfo := ⟨1, "Compile Complete", 5⟩

/-- The cache bound and full-queue drop behaviour witnessed on a concrete run
and a concrete full-queue state. -/
theorem cache_bounded_and_queue_never_blocks_witness :
    ((monitorRun 0 true (fun _ => "Dialog") []).cache =
        (monitorRun 0 true (fun _ => "Dialog") []).emitted.drop
          ((monitorRun 0 true (fun _ => "Dialog") []).emitted.length - replayCacheLimit)
      ∧ (monitorRun 0 true (fun _ => "Dialog") []).cache.length ≤ replayCacheLimit)
    ∧ ((processWindow 0 true (fun _ => "Dialog") c8FullQueueState c8NewWindow).queue =
        c8FullQueueState.queue
      ∧ mkEvent (fun _ => "Dialog") c8NewWindow ∈
        (processWindow 0 true (fun _ => "Dialog") c8FullQueueState c8NewWindow).cache) :=
  cache_bounded_and_queue_never_blocks 0 true (fun _ => "Dialog") []
    c8FullQueueState c8NewWindow (by decide) (by decide) (Or.inl rfl) rfl

/-! ## The wait primitive (`WaitOnMonitor`) -/

/-- A cached channel-population fact: when the channel was never created the
monitor broadcasts nothing, so the replay cache stays empty. Replay-cache
states with entries therefore only arise with the channel initialized. -/
lemma monitorRun_cache_empty_of_chNil (pid : Nat) (cls : Nat → String)
    (ticks : List (List WindowInfo)) : (monitorRun pid false cls ticks).cache = [] := by
  refine foldl_preserves _ (fun s => s.cache = [])
    (fun s ws hs =>
      foldl_preserves _ (fun s' => s'.cache = [])
        (fun s' w hs' => by
          unfold processWindow
          split
          · exact hs'
          · split
            · exact hs'
            · simpa using hs')
        ws s hs)
    ticks MonitorState.init rfl

/-- `m(ev)` for any of the supplied matcher predicates. -/
def matchesAny (ms : List (WindowEvent → Bool)) (ev : WindowEvent) : Bool :=
  ms.any (fun m => m ev)

/-- Phase one of `WaitOnMonitor`: scan the replay cache from the newest entry
(`for i := len(recentEvents) - 1; i >= 0; i--`) and return the first match. -/
def scanRecent (cache : List WindowEvent) (ms : List (WindowEvent → Bool)) :
    Option WindowEvent :=
  cache.reverse.find? (matchesAny ms)

/-- How a call to `WaitOnMonitor` returned. -/
inductive WaitOutcome
  | hitCache (ev : WindowEvent)
  | hitQueue (ev : WindowEvent)
  | timedOut
  | nilChannel
deriving Repr, DecidableEq

/-- `WaitOnMonitor`: return not-found on a nil channel, otherwise scan the
replay cache newest-to-oldest, otherwise block on the queue with a timer.
`delivered` lists the events received from the channel before the timer
fires. -/
def waitOnMonitor (chInit : Bool) (cache delivered : List WindowEvent)
    (ms : List (WindowEvent → Bool)) : WaitOutcome :=
  if chInit = false then .nilChannel
  else
    match scanRecent cache ms with
    | some ev => .hitCache ev
    | none =>
      match delivered.find? (matchesAny ms) with
      | some ev => .hitQueue ev
      | none => .timedOut

lemma exists_find?_eq_some {α : Type} (p : α → Bool) :
    ∀ l : List α, (∃ x ∈ l, p x = true) → ∃ a, l.find? p = some a := by
  intro l
  induction l with
  | nil => rintro ⟨x, hx, _⟩; cases hx
  | cons b t ih =>
    rintro ⟨x, hx, hpx⟩
    by_cases hb : p b = true
    · exact ⟨b, List.find?_cons_of_pos _ hb⟩
    · rcases List.mem_cons.mp hx with rfl | hxt
      · exact absurd hpx hb
      · obtain ⟨a, ha⟩ := ih ⟨x, hxt, hpx⟩
        exact ⟨a, by rw [List.find?_cons_of_neg _ hb, ha]⟩

lemma find?_split {α : Type} (p : α → Bool) :
    ∀ (l : List α) (a : α), l.find? p = some a →
      p a = true ∧ ∃ u v, l = u ++ a :: v ∧ ∀ x ∈ u, p x = false := by
  intro l
  induction l with
  | nil => intro a h; simp at h
  | cons b t ih =>
    intro a h
    by_cases hb : p b = true
    · rw [List.find?_cons_of_pos _ hb] at h
      obtain rfl : b = a := by injection h
      exact ⟨hb, [], t, rfl, by intro x hx; cases hx⟩
    · rw [List.find?_cons_of_neg _ hb] at h
      obtain ⟨hpa, u, v, hl, hu⟩ := ih a h
      refine ⟨hpa, b :: u, v, by rw [hl, List.cons_append], ?_⟩
      intro x hx
      rcases List.mem_cons.mp hx with rfl | hxu
      · exact Bool.not_eq_true _ ▸ eq_false_of_ne_true hb
      · exact hu x hxu

/-- Claim C6: whenever some cached event satisfies one of the predicates,
`WaitOnMonitor` returns that hit from the replay-cache scan — never entering
the timer-bounded queue wait — and the returned event is the newest cached
match: no event cached after it satisfies any predicate. -/
theorem waitOnMonitor_cache_hit (cache delivered : List WindowEvent)
    (ms : List (WindowEvent → Bool))
    (hmatch : ∃ ev ∈ cache, matchesAny ms ev = true) :
    ∃ ev, waitOnMonitor true cache delivered ms = .hitCache ev
      ∧ matchesAny ms ev = true
      ∧ ∃ pre post, cache = pre ++ ev :: post
        ∧ ∀ e ∈ post, matchesAny ms e = false := by
  obtain ⟨x, hx, hpx⟩ := hmatch
  obtain ⟨a, ha⟩ :=
    exists_find?_eq_some (matchesAny ms) cache.reverse ⟨x, List.mem_reverse.mpr hx, hpx⟩
  obtain ⟨hpa, u, v, hrev, hu⟩ := find?_split (matchesAny ms) cache.reverse a ha
  refine ⟨a, ?_, hpa, v.reverse, u.reverse, ?_, ?_⟩
  · simp [waitOnMonitor, scanRecent, ha]
  · have hc := congrArg List.reverse hrev
    rw [List.reverse_reverse] at hc
    rw [hc]
    simp
  · intro e he
    exact hu e (List.mem_reverse.mp he)

/-- The cache-hit behaviour witnessed on a concrete replay cache whose two
newest entries both match: the newest one is returned. -/
theorem waitOnMonitor_cache_hit_witness :
    ∃ ev, waitOnMonitor true
        [⟨1, "Operation Complete", 5, "Dlg"⟩, ⟨2, "Compile Complete", 5, "Dlg"⟩] []
        [fun e => e.title == "Compile Complete"] = .hitCache ev
      ∧ matchesAny [fun e => e.title == "Compile Complete"] ev = true
      ∧ ∃ pre post,
          [(⟨1, "Operation Complete", 5, "Dlg"⟩ : WindowEvent),
            ⟨2, "Compile Complete", 5, "Dlg"⟩] = pre ++ ev :: post
        ∧ ∀ e ∈ post, matchesAny [fun e => e.title == "Compile Complete"] e = false :=
  waitOnMonitor_cache_hit _ _ _ ⟨⟨2, "Compile Complete", 5, "Dlg"⟩, by decide, by decide⟩

/-! ## Compilation orchestration (`Compile`, DialogHandler variant) -/

/-- `CompileResult` with its eight fields. -/
structure CompileResult where
  warnings : Nat
  notices : Nat
  errors : Nat
  compileTime : Rat
  errorMessages : List String
  warningMessages : List String
  noticeMessages : List String
  hasErrors : Bool
deriving Repr, DecidableEq

/-- The zero CompileResult value the orchestration starts from. -/
def CompileResult.empty : CompileResult := ⟨0, 0, 0, 0, [], [], [], false⟩

/-- One dialog-handling wait attempted by the orchestration, in order. -/
inductive DialogStep
  | operationComplete
  | incompleteSymbols
  | convertCompile
  | commentedOutSymbols
  | compiling
  | compileComplete
  | programCompilation
  | confirmation
deriving Repr, DecidableEq

/-- The errors `Compile` can return. -/
inductive CompileErrorKind
  | incompleteSymbols
  | compileTimeout
  | compileFailed (errorCount : Nat)
deriving Repr, DecidableEq

/-- Collaborator outcomes driving one orchestration run: the resolved pid,
which dialogs appear within their timeouts, the statistics read off the
Compile Complete dialog (`ParseStatLine` / `ParseCompileTimeLine` results are
environment inputs: their definitions are not among the embedded sources),
and the list-box items of the Program Compilation dialog. -/
structure CompileEnv where
  pid : Nat
  incompleteSymbols : Bool
  compileCompleteFound : Bool
  ccWarnings : Nat
  ccNotices : Nat
  ccErrors : Nat
  ccCompileTime : Rat
  programCompilationFound : Bool
  programCompilationItems : List String
deriving Repr, DecidableEq

structure CompileOutcome where
  result : Option CompileResult
  error : Option CompileErrorKind
  steps : List DialogStep
deriving Repr, DecidableEq

/-- `ParseProgramCompilation`: when the dialog is not observed within its
timeout all lists stay empty, otherwise the list-box items are categorized. -/
def parseProgramCompilationModel (env : CompileEnv) : Messages :=
  if env.programCompilationFound then parseProgramCompilationItems env.programCompilationItems
  else Messages.empty

/-- The shared tail of `Compile`: close dialogs, await the Confirmation dialog
when the pid is known, and return the result — with an error when
`result.HasErrors` is set. -/
def finishCompile (result : CompileResult) (steps : List DialogStep) (pid : Nat) :
    CompileOutcome :=
  let steps := if pid ≠ 0 then steps ++ [DialogStep.confirmation] else steps
  if result.hasErrors then
    ⟨some result, some (.compileFailed result.errors), steps⟩
  else
    ⟨some result, none, steps⟩

/-- The `Compile` orchestration of the DialogHandler variant. Foregrounding,
verification and keystroke injection do not influence the returned value and
are not modelled; each `DialogStep` records one dialog wait attempted. -/
def Compile (env : CompileEnv) : CompileOutcome :=
  if env.pid ≠ 0 then
    let steps := [DialogStep.operationComplete, DialogStep.incompleteSymbols]
    if env.incompleteSymbols then
      ⟨none, some .incompleteSymbols, steps⟩
    else
      let steps := steps ++ [DialogStep.convertCompile, DialogStep.commentedOutSymbols,
        DialogStep.compiling, DialogStep.compileComplete]
      if !env.compileCompleteFound then
        ⟨none, some .compileTimeout, steps⟩
      else
        let warnings := env.ccWarnings
        let notices := env.ccNotices
        let errors := env.ccErrors
        let compileTime := env.ccCompileTime
        if 0 < warnings ∨ 0 < notices ∨ 0 < errors then
          let steps := steps ++ [DialogStep.programCompilation]
          let msgs := parseProgramCompilationModel env
          let r1 : CompileResult :=
            { CompileResult.empty with
              errorMessages := msgs.errors
              warningMessages := msgs.warnings
              noticeMessages := msgs.notices }
          let r2 := if msgs.errors.length > 0 then { r1 with hasErrors := true } else r1
          let r3 := { r2 with
            warnings := warnings, notices := notices, errors := errors,
            compileTime := compileTime, hasErrors := decide (0 < errors) }
          finishCompile r3 steps env.pid
        else
          finishCompile
            { CompileResult.empty with
              warnings := warnings, notices := notices, errors := errors,
              compileTime := compileTime, hasErrors := decide (0 < errors) }
            steps env.pid
  else
    finishCompile CompileResult.empty [] env.pid

/-- A run whose Compile Complete dialog reports one warning and zero errors
while the Program Compilation dialog lists an ERROR-classified message. -/
def c1Env : CompileEnv :=
  { pid := 1234, incompleteSymbols := false, compileCompleteFound := true,
    ccWarnings := 1, ccNotices := 0, ccErrors := 0, ccCompileTime := 0,
    programCompilationFound := true,
    programCompilationItems := ["ERROR: Line 5: Undefined symbol foo"] }

/-- Claim C1: the returned result carries the non-empty error-message list,
yet `hasErrors` is false and no error is returned — the final field
assignment `result.HasErrors = errors > 0` overwrites the earlier
`hasErrors = true` update made when error messages were collected, so
"hasErrors iff errorCount > 0 or errorMessages non-empty" fails. -/
theorem hasErrors_dropped_on_error_messages :
    ((Compile c1Env).result.map (fun r => (r.errorMessages, r.hasErrors)) =
      some (["ERROR: Line 5: Undefined symbol foo"], false))
    ∧ (Compile c1Env).error = none := by
  decide

/-- Claim C9: a resolved pid together with a detected Incomplete Symbols
dialog makes the orchestration return no result and a fatal error right
after the IncompleteSymbols wait: no later dialog step — in particular not
the CompileComplete wait — is attempted. -/
theorem incompleteSymbols_aborts (env : CompileEnv) (hpid : env.pid ≠ 0)
    (hinc : env.incompleteSymbols = true) :
    (Compile env).result = none
    ∧ (Compile env).error = some CompileErrorKind.incompleteSymbols
    ∧ (Compile env).steps = [DialogStep.operationComplete, DialogStep.incompleteSymbols]
    ∧ DialogStep.compileComplete ∉ (Compile env).steps := by
  simp [Compile, hpid, hinc]

def c9Env : CompileEnv :=
  { pid := 7, incompleteSymbols := true, compileCompleteFound := false,
    ccWarnings := 0, ccNotices := 0, ccErrors := 0, ccCompileTime := 0,
    programCompilationFound := false, programCompilationItems := [] }

/-- The Incomplete Symbols abort witnessed on a concrete environment. -/
theorem incompleteSymbols_aborts_witness :
    (Compile c9Env).result = none
    ∧ (Compile c9Env).error = some CompileErrorKind.incompleteSymbols
    ∧ (Compile c9Env).steps = [DialogStep.operationComplete, DialogStep.incompleteSymbols]
    ∧ DialogStep.compileComplete ∉ (Compile c9Env).steps :=
  incompleteSymbols_aborts c9Env (by decide) rfl

/-- Claim C10: when the pid cannot be resolved, `Compile` attempts no dialog
step at all — not even the mandatory CompileComplete wait — and returns the
all-zero result (`hasErrors = false`) with no error. -/
theorem pid_zero_skips_dialogs (env : CompileEnv) (hpid : env.pid = 0) :
    Compile env = ⟨some CompileResult.empty, none, []⟩ := by
  simp [Compile, finishCompile, hpid, CompileResult.empty]

def c10Env : CompileEnv :=
  { pid := 0, incompleteSymbols := false, compileCompleteFound := true,
    ccWarnings := 0, ccNotices := 0, ccErrors := 0, ccCompileTime := 0,
    programCompilationFound := false, programCompilationItems := [] }

/-- The pid-unresolved success report witnessed on a concrete environment. -/
theorem pid_zero_skips_dialogs_witness :
    Compile c10Env = ⟨some CompileResult.empty, none, []⟩ :=
  pid_zero_skips_dialogs c10Env rfl

/-! ## Top-level orchestration (`Execute` in the cmd package) -/

/-- Shutdown actions observable during one `Execute` run. -/
inductive CleanupCall
  | stopMonitor
  | forceCleanup
  | clientCleanup
deriving Repr, DecidableEq

inductive ExecErrorKind
  | launchFailed
  | windowAppearTimeout
  | windowNotResponsive
  | compileError (e : CompileErrorKind)
  | reportedErrors (n : Nat)
deriving Repr, DecidableEq

/-- Collaborator outcomes driving one `Execute` run from the launch of SIMPL
Windows onward. -/
structure ExecEnv where
  launchOk : Bool
  appearFound : Bool
  readyOk : Bool
  compileEnv : CompileEnv
deriving Repr, DecidableEq

structure ExecOutcome where
  error : Option ExecErrorKind
  cleanups : List CleanupCall
deriving Repr, DecidableEq

/-- `Execute` from `launchSIMPLWindows` onward. `cleanups` lists the shutdown
actions in the order they run; deferred calls run on return, most recently
deferred first. The `defer simplClient.Cleanup(hwnd)` is registered only
after `waitForWindowReady` has returned successfully, and
`waitForWindowReady` itself calls `ForceCleanup` only on the appear-timeout
path, not on the not-responsive path. -/
def Execute (env : ExecEnv) : ExecOutcome :=
  if !env.launchOk then
    ⟨some .launchFailed, [CleanupCall.stopMonitor]⟩
  else if !env.appearFound then
    ⟨some .windowAppearTimeout, [CleanupCall.forceCleanup, CleanupCall.stopMonitor]⟩
  else if !env.readyOk then
    ⟨some .windowNotResponsive, [CleanupCall.stopMonitor]⟩
  else
    match Compile env.compileEnv with
    | ⟨_, some e, _⟩ =>
        ⟨some (.compileError e), [CleanupCall.clientCleanup, CleanupCall.stopMonitor]⟩
    | ⟨some res, none, _⟩ =>
        if res.hasErrors then
          ⟨some (.reportedErrors res.errors), [CleanupCall.clientCleanup, CleanupCall.stopMonitor]⟩
        else
          ⟨none, [CleanupCall.clientCleanup, CleanupCall.stopMonitor]⟩
    | ⟨none, none, _⟩ =>
        ⟨none, [CleanupCall.clientCleanup, CleanupCall.stopMonitor]⟩

def c2Env : ExecEnv :=
  { launchOk := true, appearFound := true, readyOk := false, compileEnv := c10Env }

/-- Claim C2: on the window-appeared-but-not-responsive path the run returns
its error after only the deferred monitor stop: neither `Cleanup` nor
`ForceCleanup` is invoked, so the cleanup routine is not reached on every
path. -/
theorem notResponsive_path_skips_cleanup :
    (Execute c2Env).error = some ExecErrorKind.windowNotResponsive
    ∧ CleanupCall.forceCleanup ∉ (Execute c2Env).cleanups
    ∧ CleanupCall.clientCleanup ∉ (Execute c2Env).cleanups := by
  decide

/-- On every other terminal path — launch is fine and the window either never
appears or becomes responsive — `Cleanup` or `ForceCleanup` does run before
`Execute` returns. -/
lemma cleanup_runs_unless_notResponsive (env : ExecEnv)
    (hlaunch : env.launchOk = true)
    (hpath : env.appearFound = false ∨ env.readyOk = true) :
    CleanupCall.forceCleanup ∈ (Execute env).cleanups
    ∨ CleanupCall.clientCleanup ∈ (Execute env).cleanups := by
  rcases hpath with h | h
  · left
    simp [Execute, hlaunch, h]
  · rcases happ : env.appearFound with _ | _
    · left
      simp [Execute, hlaunch, happ]
    · right
      simp only [Execute, hlaunch, happ, h, Bool.not_true, Bool.false_eq_true, if_false]
      rcases Compile env.compileEnv with ⟨r, e, st⟩
      rcases e with _ | e
      · rcases r with _ | res
        · simp
        · by_cases hres : res.hasErrors <;> simp [hres]
      · simp
